import Mathlib

/-!
Verification development for the powerspot repository.

The Python sources are shallowly embedded: Python `str` values are modelled
as `List Char` (a sequence of code points, matching Python's string model),
Python `datetime.datetime` as a record of year/month/day plus a sub-day
component, dictionaries from the Spotify API as structures holding the
fields the code reads, and fallible Python code as `Except PyErr`.
The remote API is modelled as explicit page sequences / catalog functions
passed in as arguments; external library collaborators (`tabulate`,
`json.dumps`) are taken as opaque function parameters.
-/

/-- Python strings are sequences of code points. -/
abbrev Str := List Char

/-- Python exceptions that the embedded code can raise. -/
inductive PyErr where
  | indexError
  | keyError
  | valueError
  | typeError
  | unboundLocalError
  deriving DecidableEq, Repr

/-! ## Character and token helpers (Python `str` methods) -/

/-- Accumulator for `str.split()` with no separator: split on whitespace
runs, discarding empty words.  `w` holds the current word reversed. -/
def pySplitAux : Str → Str → List Str
  | [], w => if w = [] then [] else [w.reverse]
  | c :: cs, w =>
    if c.isWhitespace then
      if w = [] then pySplitAux cs [] else w.reverse :: pySplitAux cs []
    else pySplitAux cs (c :: w)

/-- Python `s.split()` (no argument): whitespace-delimited tokens. -/
def pySplit (s : Str) : List Str := pySplitAux s []

/-- Python `s.split(c)` for a one-character separator: keeps empty parts. -/
def splitOnChar (c : Char) : Str → List Str
  | [] => [[]]
  | x :: xs =>
    if x = c then [] :: splitOnChar c xs
    else
      match splitOnChar c xs with
      | [] => [[x]]
      | w :: ws => (x :: w) :: ws

/-- The lines a Python file object yields (final empty piece models the
empty string `readline` returns at end of file). -/
def fileLines (s : Str) : List Str := splitOnChar (Char.ofNat 10) s

/-- Decimal digit character for a value below ten. -/
def digitChar (n : Nat) : Char := Char.ofNat (48 + n)

/-- Value of a decimal digit character, `none` for non-digits. -/
def charDigit (c : Char) : Option Nat :=
  if 48 ≤ c.toNat ∧ c.toNat ≤ 57 then some (c.toNat - 48) else none

/-- Reads a token consisting purely of decimal digits (empty gives 0,
callers guard the length). -/
def digitsToNat : Str → Nat → Option Nat
  | [], acc => some acc
  | c :: cs, acc =>
    match charDigit c with
    | none => none
    | some d => digitsToNat cs (acc * 10 + d)

/-! ## Dates: the slice of `datetime.datetime` the code uses -/

/-- A Python `datetime.datetime` value: calendar date plus the sub-day
component (time of day), compared lexicographically. -/
structure Datetime where
  year : Nat
  month : Nat
  day : Nat
  tod : Nat
  deriving DecidableEq, Repr

/-- Gregorian leap-year test. -/
def isLeap (y : Nat) : Bool := y % 4 = 0 && (y % 100 ≠ 0 || y % 400 = 0)

/-- Number of days of a month in a given year. -/
def daysInMonth (y m : Nat) : Nat :=
  if m = 2 then (if isLeap y then 29 else 28)
  else if m = 4 ∨ m = 6 ∨ m = 9 ∨ m = 11 then 30
  else 31

/-- The date components form a valid `datetime.date`. -/
def ValidDate (d : Datetime) : Prop :=
  1 ≤ d.year ∧ d.year ≤ 9999 ∧ 1 ≤ d.month ∧ d.month ≤ 12 ∧
    1 ≤ d.day ∧ d.day ≤ daysInMonth d.year d.month

instance (d : Datetime) : Decidable (ValidDate d) := by
  unfold ValidDate; infer_instance

/-- Python `datetime` comparison `a < b`: lexicographic on the components. -/
def dtLtB (a b : Datetime) : Bool :=
  if a.year ≠ b.year then a.year < b.year
  else if a.month ≠ b.month then a.month < b.month
  else if a.day ≠ b.day then a.day < b.day
  else a.tod < b.tod

/-- CPython `strptime(s, DATE_FORMAT)` with format `%Y-%m-%d`: four year
digits, one or two month and day digits, components validated as a real
date; anything else raises `ValueError` (modelled as `none`). -/
def strptimeYMD (s : Str) : Option Datetime :=
  match splitOnChar (Char.ofNat 45) s with
  | [ys, ms, ds] =>
    if ys.length = 4 ∧ 1 ≤ ms.length ∧ ms.length ≤ 2 ∧ 1 ≤ ds.length ∧ ds.length ≤ 2 then
      match digitsToNat ys 0, digitsToNat ms 0, digitsToNat ds 0 with
      | some y, some m, some d =>
        if 1 ≤ y ∧ 1 ≤ m ∧ m ≤ 12 ∧ 1 ≤ d ∧ d ≤ daysInMonth y m then
          some ⟨y, m, d, 0⟩
        else none
      | _, _, _ => none
    else none
  | _ => none

/-- CPython `strptime(s, "%Y")`: exactly four digits; the omitted month and
day default to January 1. -/
def strptimeY (s : Str) : Option Datetime :=
  if s.length = 4 then
    match digitsToNat s 0 with
    | some y => if 1 ≤ y then some ⟨y, 1, 1, 0⟩ else none
    | none => none
  else none

/-- Two-digit zero-padded decimal rendering (strftime `%m`, `%d`). -/
def pad2 (n : Nat) : Str := [digitChar (n / 10), digitChar (n % 10)]

/-- Four-digit decimal rendering (strftime `%Y` for four-digit years). -/
def pad4 (n : Nat) : Str :=
  [digitChar (n / 1000), digitChar (n / 100 % 10), digitChar (n / 10 % 10), digitChar (n % 10)]

/-- `d.strftime("%Y-%m-%d")`. -/
def strftimeYMD (d : Datetime) : Str :=
  pad4 d.year ++ [Char.ofNat 45] ++ pad2 d.month ++ [Char.ofNat 45] ++ pad2 d.day

/-- Steps one calendar day backwards. -/
def predDay (d : Datetime) : Datetime :=
  if 1 < d.day then ⟨d.year, d.month, d.day - 1, d.tod⟩
  else if 1 < d.month then ⟨d.year, d.month - 1, daysInMonth d.year (d.month - 1), d.tod⟩
  else ⟨d.year - 1, 12, 31, d.tod⟩

/-- Steps one calendar day forwards. -/
def succDay (d : Datetime) : Datetime :=
  if d.day < daysInMonth d.year d.month then ⟨d.year, d.month, d.day + 1, d.tod⟩
  else if d.month < 12 then ⟨d.year, d.month + 1, 1, d.tod⟩
  else ⟨d.year + 1, 1, 1, d.tod⟩

/-- `now - datetime.timedelta(weeks=w)` for an integer `w`. -/
def dtSubWeeks (now : Datetime) (w : Int) : Datetime :=
  if 0 ≤ w then Nat.repeat predDay (7 * w.toNat) now
  else Nat.repeat succDay (7 * (-w).toNat) now

/-! ## Records: the dictionary fields the code reads -/

/-- An artist record from the Spotify API. -/
structure Artist where
  id : Str
  name : Str
  deriving DecidableEq, Repr

/-- An album record from the Spotify API. -/
structure Album where
  id : Str
  name : Str
  artists : List Artist
  release_date : Str
  deriving DecidableEq, Repr

/-- A track record from the Spotify API; of the nested album object only
its name is ever read. -/
structure Track where
  id : Str
  name : Str
  artists : List Artist
  albumName : Str
  deriving DecidableEq, Repr

/-- One page of a paginated listing endpoint: the item array and the
continuation cursor (`None` when this is the last page). -/
structure Page (α : Type) where
  items : List α
  next : Option Nat
  deriving DecidableEq, Repr

/-! ## operations.py -/

/-- Source `operations.parse_release_date`: try `%Y-%m-%d`, on `ValueError`
try `%Y`; if that fails too the `ValueError` propagates. -/
def parse_release_date (date : Str) : Except PyErr Datetime :=
  match strptimeYMD date with
  | some output => .ok output
  | none =>
    match strptimeY date with
    | some output => .ok output
    | none => .error .valueError

/-- The remote `sp.artist_albums(artist_id, ..., limit=n)["items"]` call:
the server holds, per artist id, the album list in its own order and
returns at most `limit` entries from its head. -/
def artist_albums (catalog : Str → List Album) (artistId : Str) (limit : Nat) : List Album :=
  (catalog artistId).take limit

/-- Loop body of `get_new_releases`: iterates over the artists reading the
record store `st`, accumulating `new_releases`; a date-parse failure
propagates immediately.  Returns the result together with the store. -/
def getNewReleasesGo (catalog : Str → List Album) (date : Datetime) (st : List Artist) :
    List Artist → List Album → Except PyErr (List Album) × List Artist
  | [], acc => (.ok acc, st)
  | artist :: rest, acc =>
    match artist_albums catalog artist.id 1 with
    | [] => getNewReleasesGo catalog date st rest acc
    | album :: _ =>
      match parse_release_date album.release_date with
      | .error e => (.error e, st)
      | .ok release_date =>
        getNewReleasesGo catalog date st rest
          (if dtLtB date release_date then acc ++ [album] else acc)

/-- Source `operations.get_new_releases`, with its record-store effect made
explicit.  `date`/`weeks` are the Python arguments (`none` is Python
`None`); `now` is `datetime.datetime.now()`.  With `date` and `weeks` both
`None`, `datetime.timedelta(weeks=None)` raises `TypeError`. -/
def get_new_releasesRun (catalog : Str → List Album) (artists : List Artist)
    (date : Option Datetime) (weeks : Option Int) (now : Datetime) :
    Except PyErr (List Album) × List Artist :=
  match date with
  | some d => getNewReleasesGo catalog d artists artists []
  | none =>
    match weeks with
    | none => (.error .typeError, artists)
    | some w => getNewReleasesGo catalog (dtSubWeeks now w) artists artists []

/-- The value `get_new_releases` returns. -/
def get_new_releases (catalog : Str → List Album) (artists : List Artist)
    (date : Option Datetime) (weeks : Option Int) (now : Datetime) :
    Except PyErr (List Album) :=
  (get_new_releasesRun catalog artists date weeks now).1

/-- A call to `get_new_releases` with the `weeks` argument omitted: Python
fills in the declared default `weeks=4` at the call. -/
def get_new_releases_weeks_omitted (catalog : Str → List Album) (artists : List Artist)
    (date : Option Datetime) (now : Datetime) : Except PyErr (List Album) :=
  get_new_releases catalog artists date (some 4) now

/-- The shared pagination loop of `get_saved_albums`, `get_saved_tracks`
and the collection phase of `get_followed_artists`: extend with the current
page's items; while the page's `next` cursor is set, move to the next page
and extend again. -/
def extendLoop {α : Type} (acc : List α) (results : Page α) : List (Page α) → List α
  | [] => acc ++ results.items
  | p :: ps =>
    match results.next with
    | none => acc ++ results.items
    | some _ => extendLoop (acc ++ results.items) p ps

/-- Source `operations.get_saved_albums`: drains all pages of the saved
albums listing. -/
def get_saved_albums {α : Type} (first : Page α) (rest : List (Page α)) : List α :=
  extendLoop [] first rest

/-- Source `operations.get_saved_tracks`: drains all pages of the saved
tracks listing. -/
def get_saved_tracks {α : Type} (first : Page α) (rest : List (Page α)) : List α :=
  extendLoop [] first rest

/-- Python string comparison (`<`, `<=` pointwise on code points,
lexicographic): `strLeB s t` is `s <= t`. -/
def strLeB : Str → Str → Bool
  | [], _ => true
  | _ :: _, [] => false
  | a :: as, b :: bs =>
    if a.toNat < b.toNat then true
    else if b.toNat < a.toNat then false
    else strLeB as bs

/-- Python `str.lower()` on the ASCII range. -/
def pyLower (s : Str) : Str := s.map Char.toLower

/-- The sorting key order of `artists.sort(key=lambda a: a["name"].lower())`. -/
def artistLe (a b : Artist) : Prop := strLeB (pyLower a.name) (pyLower b.name) = true

instance : DecidableRel artistLe := by
  unfold artistLe; infer_instance

/-- Collection phase of `get_followed_artists` (the pagination loop before
the sort). -/
def getFollowedCollect (first : Page Artist) (rest : List (Page Artist)) : List Artist :=
  extendLoop [] first rest

/-- Source `operations.get_followed_artists`: drain all pages, then
`artists.sort(key=lambda artist: artist["name"].lower())` — a stable sort
ascending by the case-folded name, modelled by insertion sort (the unique
stable-sort result). -/
def get_followed_artists (first : Page Artist) (rest : List (Page Artist)) : List Artist :=
  List.insertionSort artistLe (getFollowedCollect first rest)

/-! ## io.py

Each formatter iterates over the record list it was handed (the records
live on the Python heap; the list doubles as the record store `st`), only
ever reading fields.  The translations thread the store explicitly and
return it next to the produced text, so that the absence of record
mutation is a stated property rather than an implicit one. -/

/-- Source `io.output_date`: the date marker line for `now`, or nothing. -/
def output_date (now : Datetime) (print_date : Bool) : Str :=
  if print_date then "%date ".data ++ strftimeYMD now ++ [Char.ofNat 10] else []

/-- Loop of `io.parse_artists`: one `- {name}` line per artist record. -/
def parseArtistsGo (st : List Artist) : List Artist → Str → Str × List Artist
  | [], output => (output, st)
  | artist :: rest, output =>
    parseArtistsGo st rest (output ++ "- ".data ++ artist.name ++ [Char.ofNat 10])

/-- Source `io.parse_artists` with its record-store effect explicit. -/
def parse_artistsRun (now : Datetime) (print_date : Bool) (st : List Artist) :
    Str × List Artist :=
  parseArtistsGo st st (output_date now print_date)

/-- The string `io.parse_artists` returns. -/
def parse_artists (now : Datetime) (print_date : Bool) (artists_json : List Artist) : Str :=
  (parse_artistsRun now print_date artists_json).1

/-- Loop of `io.parse_albums`: the zipped generators read, per record, the
primary artist's name (`album["artists"][0]["name"]`, `IndexError` when the
artist array is empty), the album name and the release date. -/
def parseAlbumsGo (st : List Album) : List Album → Str → Except PyErr Str × List Album
  | [], output => (.ok output, st)
  | album :: rest, output =>
    match album.artists with
    | [] => (.error .indexError, st)
    | a :: _ =>
      parseAlbumsGo st rest
        (output ++ "- ".data ++ a.name ++ " - ".data ++ album.name ++ " - ".data ++
          album.release_date ++ [Char.ofNat 10])

/-- Source `io.parse_albums` with its record-store effect explicit. -/
def parse_albumsRun (now : Datetime) (print_date : Bool) (st : List Album) :
    Except PyErr Str × List Album :=
  parseAlbumsGo st st (output_date now print_date)

/-- The string `io.parse_albums` returns. -/
def parse_albums (now : Datetime) (print_date : Bool) (albums_json : List Album) :
    Except PyErr Str :=
  (parse_albumsRun now print_date albums_json).1

/-- Row-extraction generator of `io.tabulate_albums`. -/
def tabulateAlbumsGo (st : List Album) :
    List Album → List (Str × Str × Str) → Except PyErr (List (Str × Str × Str)) × List Album
  | [], rows => (.ok rows, st)
  | album :: rest, rows =>
    match album.artists with
    | [] => (.error .indexError, st)
    | a :: _ => tabulateAlbumsGo st rest (rows ++ [(a.name, album.name, album.release_date)])

/-- Source `io.tabulate_albums` with its record-store effect explicit; the
external `tabulate` library is the opaque parameter `tab` (headers, rows). -/
def tabulate_albumsRun (tab : List Str → List (Str × Str × Str) → Str)
    (now : Datetime) (print_date : Bool) (st : List Album) : Except PyErr Str × List Album :=
  match tabulateAlbumsGo st st [] with
  | (.error e, st2) => (.error e, st2)
  | (.ok rows, st2) =>
    (.ok (output_date now print_date ++ tab ["Artist".data, "Album".data, "Date".data] rows), st2)

/-- Row-extraction generator of `io.tabulate_tracks` (reads the primary
artist name, the track name and the nested album's name). -/
def tabulateTracksGo (st : List Track) :
    List Track → List (Str × Str × Str) → Except PyErr (List (Str × Str × Str)) × List Track
  | [], rows => (.ok rows, st)
  | track :: rest, rows =>
    match track.artists with
    | [] => (.error .indexError, st)
    | a :: _ => tabulateTracksGo st rest (rows ++ [(a.name, track.name, track.albumName)])

/-- Source `io.tabulate_tracks` with its record-store effect explicit. -/
def tabulate_tracksRun (tab : List Str → List (Str × Str × Str) → Str)
    (now : Datetime) (print_date : Bool) (st : List Track) : Except PyErr Str × List Track :=
  match tabulateTracksGo st st [] with
  | (.error e, st2) => (.error e, st2)
  | (.ok rows, st2) =>
    (.ok (output_date now print_date ++ tab ["Artist".data, "Track".data, "Album".data] rows), st2)

/-- Scanning loop of `io.read_date`: `readline().split()` per line; at end
of file `readline` returns the empty string, whose empty split makes
`words[0]` raise `IndexError` — as does a blank line mid-file, and
`words[1]` on a marker line with no second token. -/
def readDateScan : List Str → Except PyErr Str
  | [] => .error .indexError
  | line :: rest =>
    match pySplit line with
    | [] => .error .indexError
    | w :: ws =>
      if w.drop 1 = "date".data then
        match ws with
        | [] => .error .indexError
        | date_str :: _ => .ok date_str
      else readDateScan rest

/-- Source `io.read_date`, over the file's lines: scan for the marker
line, then parse its second token with `%Y-%m-%d`; a `ValueError` there is
caught and reported as `None`.  (The `except NameError` arm of the source
is unreachable: the scanning loop raises `IndexError` first.) -/
def read_date (lines : List Str) : Except PyErr (Option Datetime) :=
  match readDateScan lines with
  | .error e => .error e
  | .ok date_str =>
    match strptimeYMD date_str with
    | some d => .ok (some d)
    | none => .ok none

/-! ## cli.py

The click chain context `ctx.obj` with its documented keys; a missing key
read raises `KeyError`.  `username` is always set by the `main` group
callback before any subcommand runs. -/

/-- A value stored under `export`: the record sequence the last fetch
produced. -/
inductive ExportVal where
  | artists (l : List Artist)
  | albums (l : List Album)
  | tracks (l : List Track)
  deriving DecidableEq, Repr

/-- The subcommand-chain context `ctx.obj`. -/
structure Ctx where
  username : Str
  artists : Option (List Artist) := none
  albums : Option (List Album) := none
  tracks : Option (List Track) := none
  exportVal : Option ExportVal := none
  last : Option Str := none
  deriving DecidableEq, Repr

/-- The three trailing assignments of the `releases` subcommand. -/
def storeReleases (ctx : Ctx) (new_releases : List Album) : Ctx :=
  { ctx with albums := some new_releases, exportVal := some (.albums new_releases),
             last := "albums".data }

/-- Fetch phase of the `releases` subcommand once `date` and `weeks` are
resolved, followed by the context assignments.  When `artists` is missing
the command echoes a diagnostic, but the local `new_releases` is then still
unbound when `ctx.obj["albums"] = new_releases` reads it, raising
`UnboundLocalError`. -/
def releasesFetch (catalog : Str → List Album) (now : Datetime) (ctx : Ctx)
    (date : Option Datetime) (weeks : Option Int) : List Str × Except PyErr Ctx :=
  match ctx.artists with
  | some arts =>
    match get_new_releases catalog arts date weeks now with
    | .error e => ([], .error e)
    | .ok new_releases => ([], .ok (storeReleases ctx new_releases))
  | none => (["Artists not in context, discarding".data], .error .unboundLocalError)

/-- Source `cli.releases`: `file` is the loaded `--file` JSON if given,
`readDateFile` the lines of the `--read-date` file, `weeks` the `--weeks`
option, `promptWeeks` what the interactive prompt would return (its click
default is 4).  Returns the echoed messages next to the outcome. -/
def releasesCmd (catalog : Str → List Album) (now : Datetime) (ctx : Ctx)
    (file : Option (List Album)) (readDateFile : Option (List Str))
    (weeks : Option Int) (promptWeeks : Int) : List Str × Except PyErr Ctx :=
  match file with
  | some loaded => ([], .ok (storeReleases ctx loaded))
  | none =>
    match readDateFile with
    | some lines =>
      match read_date lines with
      | .error e => ([], .error e)
      | .ok date => releasesFetch catalog now ctx date weeks
    | none =>
      let w := match weeks with
        | some w => w
        | none => promptWeeks
      releasesFetch catalog now ctx none (some w)

/-- Confirmation loop of `save --ask`: echoes each album's primary artist
(`album["artists"][0]["name"]`, `IndexError` on an empty artist array) and
keeps the confirmed ones. -/
def saveAskGo (confirm : Nat → Bool) : List Album → Nat → List Album →
    Except PyErr (List Album)
  | [], _, acc => .ok acc
  | album :: rest, i, acc =>
    match album.artists with
    | [] => .error .indexError
    | _ :: _ => saveAskGo confirm rest (i + 1) (if confirm i then acc ++ [album] else acc)

/-- Source `cli.save`: reading `ctx.obj["albums"]` raises `KeyError` when
the key is absent; returns the album list handed to
`operations.save_albums`. -/
def saveCmd (ctx : Ctx) (ask : Bool) (confirm : Nat → Bool) : Except PyErr (List Album) :=
  if ask then
    match ctx.albums with
    | none => .error .keyError
    | some albums => saveAskGo confirm albums 0 []
  else
    match ctx.albums with
    | none => .error .keyError
    | some albums => .ok albums

/-- Dispatch through the `PARSERS` dict with `print_date=False`.
`parse_artists` reads only each record's name, so it succeeds on any
record kind; the tabulators read fields the other record kinds do not
have, which raises `KeyError`. -/
def runParser (tab : List Str → List (Str × Str × Str) → Str) (now : Datetime)
    (last : Str) (e : ExportVal) : Except PyErr Str :=
  if last = "artists".data then
    match e with
    | .artists l => .ok (parse_artists now false l)
    | .albums l => .ok (parse_artists now false (l.map fun alb => ⟨alb.id, alb.name⟩))
    | .tracks l => .ok (parse_artists now false (l.map fun t => ⟨t.id, t.name⟩))
  else if last = "albums".data then
    match e with
    | .albums l => (tabulate_albumsRun tab now false l).1
    | _ => .error .keyError
  else if last = "tracks".data then
    match e with
    | .tracks l => (tabulate_tracksRun tab now false l).1
    | _ => .error .keyError
  else .error .keyError

/-- Source `cli.write`: a `.wiki` file name goes through
`PARSERS[ctx.obj["last"]](ctx.obj["export"], print_date=False)` (the
`last` key is read first, then the dict lookup, then `export`); any other
name gets `json.dumps(ctx.obj["export"])`, with the JSON encoder an opaque
parameter.  Returns the string written to the file. -/
def writeCmd (tab : List Str → List (Str × Str × Str) → Str)
    (dumps : ExportVal → Str) (now : Datetime) (ctx : Ctx) (fileName : Str) :
    Except PyErr Str :=
  if (splitOnChar (Char.ofNat 46) fileName).getLastD [] = "wiki".data then
    match ctx.last with
    | none => .error .keyError
    | some last =>
      if last = "tracks".data ∨ last = "artists".data ∨ last = "albums".data then
        match ctx.exportVal with
        | none => .error .keyError
        | some e => runParser tab now last e
      else .error .keyError
  else
    match ctx.exportVal with
    | none => .error .keyError
    | some e => .ok (dumps e)

/-! ## Helper lemmas -/

/-- Well-formed cursor chain: every page except the last carries a `next`
cursor and the last does not. -/
def chainOkB {α : Type} : Page α → List (Page α) → Bool
  | p, [] => p.next.isNone
  | p, q :: qs => p.next.isSome && chainOkB q qs

theorem extendLoop_flatten {α : Type} :
    ∀ (rest : List (Page α)) (first : Page α) (acc : List α),
      chainOkB first rest = true →
      extendLoop acc first rest = acc ++ first.items ++ (rest.map Page.items).flatten := by
  intro rest
  induction rest with
  | nil =>
    intro first acc _
    simp [extendLoop]
  | cons p ps ih =>
    intro first acc h
    simp only [chainOkB, Bool.and_eq_true] at h
    obtain ⟨h1, h2⟩ := h
    obtain ⟨c, hc⟩ := Option.isSome_iff_exists.mp h1
    simp only [extendLoop, hc]
    rw [ih p (acc ++ first.items) h2]
    simp

theorem extendLoop_stop {α : Type} (first : Page α) (rest : List (Page α)) (acc : List α)
    (h : first.next = none) : extendLoop acc first rest = acc ++ first.items := by
  cases rest with
  | nil => simp [extendLoop]
  | cons p ps => simp [extendLoop, h]

theorem strLeB_total : ∀ s t : Str, strLeB s t = true ∨ strLeB t s = true
  | [], _ => by left; rfl
  | _ :: _, [] => by right; rfl
  | a :: as, b :: bs => by
    simp only [strLeB]
    rcases Nat.lt_trichotomy a.toNat b.toNat with h | h | h
    · left; simp [h]
    · have h1 : ¬ a.toNat < b.toNat := by omega
      have h2 : ¬ b.toNat < a.toNat := by omega
      rcases strLeB_total as bs with ht | ht <;> simp [h1, h2, ht]
    · right; simp [h]

theorem strLeB_trans : ∀ s t u : Str,
    strLeB s t = true → strLeB t u = true → strLeB s u = true
  | [], _, _, _, _ => rfl
  | a :: as, [], _, h1, _ => by simp [strLeB] at h1
  | _ :: _, _ :: _, [], _, h2 => by simp [strLeB] at h2
  | a :: as, b :: bs, c :: cs, h1, h2 => by
    simp only [strLeB] at h1 h2 ⊢
    split_ifs at h1 h2 ⊢ <;> first
      | rfl
      | omega
      | exact strLeB_trans as bs cs h1 h2

instance : IsTotal Artist artistLe :=
  ⟨fun a b => strLeB_total (pyLower a.name) (pyLower b.name)⟩

instance : IsTrans Artist artistLe :=
  ⟨fun a b c => strLeB_trans (pyLower a.name) (pyLower b.name) (pyLower c.name)⟩

theorem parseArtistsGo_store (st : List Artist) :
    ∀ (l : List Artist) (out : Str), (parseArtistsGo st l out).2 = st := by
  intro l
  induction l with
  | nil => intro out; rfl
  | cons a rest ih => intro out; simp [parseArtistsGo, ih]

theorem parseAlbumsGo_store (st : List Album) :
    ∀ (l : List Album) (out : Str), (parseAlbumsGo st l out).2 = st := by
  intro l
  induction l with
  | nil => intro out; rfl
  | cons alb rest ih =>
    intro out
    cases h : alb.artists with
    | nil => simp [parseAlbumsGo, h]
    | cons a tl => simp [parseAlbumsGo, h, ih]

theorem tabulateAlbumsGo_store (st : List Album) :
    ∀ (l : List Album) (rows : List (Str × Str × Str)), (tabulateAlbumsGo st l rows).2 = st := by
  intro l
  induction l with
  | nil => intro rows; rfl
  | cons alb rest ih =>
    intro rows
    cases h : alb.artists with
    | nil => simp [tabulateAlbumsGo, h]
    | cons a tl => simp [tabulateAlbumsGo, h, ih]

theorem tabulateTracksGo_store (st : List Track) :
    ∀ (l : List Track) (rows : List (Str × Str × Str)), (tabulateTracksGo st l rows).2 = st := by
  intro l
  induction l with
  | nil => intro rows; rfl
  | cons t rest ih =>
    intro rows
    cases h : t.artists with
    | nil => simp [tabulateTracksGo, h]
    | cons a tl => simp [tabulateTracksGo, h, ih]

theorem getNewReleasesGo_store (catalog : Str → List Album) (date : Datetime)
    (st : List Artist) :
    ∀ (l : List Artist) (acc : List Album), (getNewReleasesGo catalog date st l acc).2 = st := by
  intro l
  induction l with
  | nil => intro acc; rfl
  | cons a rest ih =>
    intro acc
    simp only [getNewReleasesGo]
    cases artist_albums catalog a.id 1 with
    | nil => exact ih acc
    | cons alb tl =>
      cases hp : parse_release_date alb.release_date with
      | error e => simp [hp]
      | ok rd => simp [hp, ih]

/-! ## Claim theorems -/

/-- C2: for every finite well-formed page chain (each page but the last
carrying a next-cursor, the last without one), `get_saved_albums`,
`get_saved_tracks` and the collection phase of `get_followed_artists`
return exactly the concatenation of the pages' item lists in page order,
items kept in page-given order; and a page without a next-cursor ends the
drain exactly there. -/
theorem C2_paginated_fetchers {α : Type} (first : Page α) (rest : List (Page α))
    (firstA : Page Artist) (restA : List (Page Artist))
    (h : chainOkB first rest = true) (hA : chainOkB firstA restA = true) :
    get_saved_albums first rest = first.items ++ (rest.map Page.items).flatten
    ∧ get_saved_tracks first rest = first.items ++ (rest.map Page.items).flatten
    ∧ getFollowedCollect firstA restA = firstA.items ++ (restA.map Page.items).flatten
    ∧ (∀ (q : Page α) (qs : List (Page α)), q.next = none →
        get_saved_albums q qs = q.items ∧ get_saved_tracks q qs = q.items) := by
  refine ⟨?_, ?_, ?_, ?_⟩
  · simpa using extendLoop_flatten rest first [] h
  · simpa using extendLoop_flatten rest first [] h
  · simpa using extendLoop_flatten restA firstA [] hA
  · intro q qs hq
    constructor <;> simpa using extendLoop_stop q qs [] hq

/-- Witness for C2 on a concrete two-page chain. -/
theorem C2_witness :
    chainOkB (Page.mk [1, 2] (some 0)) [Page.mk [3] none] = true
    ∧ get_saved_albums (Page.mk [1, 2] (some 0)) [Page.mk [3] none] = [1, 2, 3] := by
  have h := C2_paginated_fetchers (Page.mk [1, 2] (some 0)) [Page.mk [3] none]
    (Page.mk ([] : List Artist) none) [] (by decide) (by decide)
  exact ⟨by decide, by rw [h.1]; decide⟩

/-- C6: the list `get_followed_artists` returns is sorted ascending by
case-insensitive artist name regardless of the order the API pages deliver
the artists; in particular delivery order Muse, abba comes out as
abba, Muse. -/
theorem C6_followed_artists_sorted (first : Page Artist) (rest : List (Page Artist)) :
    List.Sorted artistLe (get_followed_artists first rest)
    ∧ get_followed_artists
        (Page.mk [Artist.mk "idm".data "Muse".data, Artist.mk "ida".data "abba".data] none) []
      = [Artist.mk "ida".data "abba".data, Artist.mk "idm".data "Muse".data] := by
  constructor
  · exact List.sorted_insertionSort artistLe (getFollowedCollect first rest)
  · decide

/-- C9: the formatters and the release filter only read record fields:
each translation, run over its record store, returns the store unchanged
next to its result, for every store and every input. -/
theorem C9_records_not_mutated (now : Datetime) (pd : Bool)
    (tab : List Str → List (Str × Str × Str) → Str)
    (stArtists : List Artist) (stAlbums : List Album) (stTracks : List Track)
    (catalog : Str → List Album) (artists : List Artist)
    (date : Option Datetime) (weeks : Option Int) :
    (parse_artistsRun now pd stArtists).2 = stArtists
    ∧ (parse_albumsRun now pd stAlbums).2 = stAlbums
    ∧ (tabulate_albumsRun tab now pd stAlbums).2 = stAlbums
    ∧ (tabulate_tracksRun tab now pd stTracks).2 = stTracks
    ∧ (get_new_releasesRun catalog artists date weeks now).2 = artists := by
  refine ⟨?_, ?_, ?_, ?_, ?_⟩
  · exact parseArtistsGo_store stArtists stArtists _
  · exact parseAlbumsGo_store stAlbums stAlbums _
  · have hgo := tabulateAlbumsGo_store stAlbums stAlbums []
    unfold tabulate_albumsRun
    cases hq : tabulateAlbumsGo stAlbums stAlbums [] with
    | mk res st2 =>
      rw [hq] at hgo
      cases res <;> simpa using hgo
  · have hgo := tabulateTracksGo_store stTracks stTracks []
    unfold tabulate_tracksRun
    cases hq : tabulateTracksGo stTracks stTracks [] with
    | mk res st2 =>
      rw [hq] at hgo
      cases res <;> simpa using hgo
  · unfold get_new_releasesRun
    cases date with
    | some d => exact getNewReleasesGo_store catalog d artists artists []
    | none =>
      cases weeks with
      | none => rfl
      | some w => exact getNewReleasesGo_store catalog _ artists artists []

instance {ε α : Type} [DecidableEq ε] [DecidableEq α] : DecidableEq (Except ε α) := fun x y =>
  match x, y with
  | .ok a, .ok b =>
    if h : a = b then isTrue (by rw [h]) else
      isFalse (fun hc => h (by injection hc))
  | .error e, .error f =>
    if h : e = f then isTrue (by rw [h]) else
      isFalse (fun hc => h (by injection hc))
  | .ok _, .error _ => isFalse (fun hc => Except.noConfusion hc)
  | .error _, .ok _ => isFalse (fun hc => Except.noConfusion hc)

theorem readDateScan_no_marker :
    ∀ lines : List Str,
      (∀ l ∈ lines, ∀ w ∈ pySplit l, w.drop 1 ≠ "date".data) →
      readDateScan lines = .error .indexError := by
  intro lines
  induction lines with
  | nil => intro _; rfl
  | cons l rest ih =>
    intro h
    simp only [readDateScan]
    cases hw : pySplit l with
    | nil => rfl
    | cons w ws =>
      have hne : ¬ (w.drop 1 = ['d', 'a', 't', 'e']) :=
        h l (by simp) w (by rw [hw]; exact List.mem_cons_self w ws)
      dsimp only
      rw [if_neg hne]
      exact ih fun l2 hl2 => h l2 (List.mem_cons_of_mem _ hl2)

/-- C3: contrary to the claim (and to the function's own docstring), on a
file none of whose lines carries a token that, stripped of its leading
marker character, equals "date" — including the empty file — `read_date`
does not return `None`: the scanning loop runs past end of file, where
`readline()` yields the empty string and `words[0]` raises `IndexError`. -/
theorem C3_read_date_markerless_raises (lines : List Str)
    (h : ∀ l ∈ lines, ∀ w ∈ pySplit l, w.drop 1 ≠ "date".data) :
    read_date lines = .error .indexError := by
  unfold read_date
  rw [readDateScan_no_marker lines h]

/-- Witness for C3: the empty file and a one-line marker-less file both
raise `IndexError`. -/
theorem C3_witness :
    read_date [] = .error .indexError
    ∧ read_date [("hello world").data] = .error .indexError := by
  constructor
  · exact C3_read_date_markerless_raises [] (by decide)
  · exact C3_read_date_markerless_raises [("hello world").data] (by decide)

/-- C4: evaluated at the failing inputs.  On a context lacking `artists`,
the `releases` subcommand (no `--file`) does echo the diagnostic, but then
`ctx.obj["albums"] = new_releases` reads the still-unbound local and the
command dies with `UnboundLocalError` — it does not skip cleanly as the
claim states.  `save` and `write` on contexts lacking the keys they index
fail with `KeyError` as the claim states. -/
theorem C4_missing_context_key :
    releasesCmd (fun _ => []) ⟨2026, 1, 1, 0⟩ (Ctx.mk "u".data none none none none none)
        none none (some 4) 4
      = (["Artists not in context, discarding".data], .error .unboundLocalError)
    ∧ saveCmd (Ctx.mk "u".data none none none none none) false (fun _ => true)
      = .error .keyError
    ∧ saveCmd (Ctx.mk "u".data none none none none none) true (fun _ => true)
      = .error .keyError
    ∧ writeCmd (fun _ _ => []) (fun _ => []) ⟨2026, 1, 1, 0⟩
        (Ctx.mk "u".data none none none none none) ("out.wiki").data
      = .error .keyError
    ∧ writeCmd (fun _ _ => []) (fun _ => []) ⟨2026, 1, 1, 0⟩
        (Ctx.mk "u".data none none none none none) ("out.json").data
      = .error .keyError := by
  refine ⟨by decide, by decide, by decide, by decide, by decide⟩

theorem parse_release_date_error (s : Str) (e : PyErr)
    (h : parse_release_date s = .error e) : e = .valueError := by
  unfold parse_release_date at h
  cases hy : strptimeYMD s with
  | some t => rw [hy] at h; simp at h
  | none =>
    rw [hy] at h
    cases hy2 : strptimeY s with
    | some t => rw [hy2] at h; simp at h
    | none => rw [hy2] at h; simp at h; exact h.symm

theorem getNewReleasesGo_ok (catalog : Str → List Album) (date : Datetime)
    (st : List Artist) :
    ∀ (l : List Artist) (acc : List Album),
      (∀ a ∈ l, ∀ alb ∈ artist_albums catalog a.id 1,
        (parse_release_date alb.release_date).isOk = true) →
      getNewReleasesGo catalog date st l acc =
        (.ok (acc ++ l.filterMap fun a =>
          (artist_albums catalog a.id 1).head?.bind fun alb =>
            match parse_release_date alb.release_date with
            | .ok rd => if dtLtB date rd then some alb else none
            | .error _ => none), st) := by
  intro l
  induction l with
  | nil => intro acc _; simp [getNewReleasesGo]
  | cons a rest ih =>
    intro acc h
    have hrest : ∀ a2 ∈ rest, ∀ alb ∈ artist_albums catalog a2.id 1,
        (parse_release_date alb.release_date).isOk = true :=
      fun a2 ha2 => h a2 (List.mem_cons_of_mem _ ha2)
    simp only [getNewReleasesGo]
    cases hq : artist_albums catalog a.id 1 with
    | nil =>
      rw [ih acc hrest]
      simp [List.filterMap_cons, hq]
    | cons alb tl =>
      have hok := h a (List.mem_cons_self a rest) alb (by rw [hq]; exact List.mem_cons_self alb tl)
      dsimp only
      cases hp : parse_release_date alb.release_date with
      | error e => rw [hp] at hok; simp [Except.toBool] at hok
      | ok rd =>
        dsimp only
        rw [ih _ hrest]
        by_cases hlt : dtLtB date rd = true
        · simp [List.filterMap_cons, hq, hp, hlt]
        · simp only [Bool.not_eq_true] at hlt
          simp [List.filterMap_cons, hq, hp, hlt]

theorem getNewReleasesGo_error_iff (catalog : Str → List Album) (date : Datetime)
    (st : List Artist) :
    ∀ (l : List Artist) (acc : List Album),
      (getNewReleasesGo catalog date st l acc).1 = .error .valueError ↔
        ∃ a ∈ l, ∃ alb ∈ artist_albums catalog a.id 1,
          parse_release_date alb.release_date = .error .valueError := by
  intro l
  induction l with
  | nil => intro acc; simp [getNewReleasesGo]
  | cons a rest ih =>
    intro acc
    simp only [getNewReleasesGo]
    cases hq : artist_albums catalog a.id 1 with
    | nil =>
      rw [ih acc]
      simp [List.exists_mem_cons_iff, hq]
    | cons alb tl =>
      have htl : tl = [] := by
        have hlen : (alb :: tl).length ≤ 1 := by
          rw [← hq]
          unfold artist_albums
          exact List.length_take_le 1 _
        simpa using hlen
      subst htl
      dsimp only
      cases hp : parse_release_date alb.release_date with
      | error e =>
        have he := parse_release_date_error _ _ hp
        subst he
        constructor
        · intro _
          exact ⟨a, List.mem_cons_self a rest, alb, by simp [hq], hp⟩
        · intro _; rfl
      | ok rd =>
        dsimp only
        rw [ih]
        constructor
        · intro hex
          obtain ⟨a2, ha2, alb2, halb2, hperr⟩ := hex
          exact ⟨a2, List.mem_cons_of_mem _ ha2, alb2, halb2, hperr⟩
        · intro hex
          obtain ⟨a2, ha2, alb2, halb2, hperr⟩ := hex
          rcases List.mem_cons.mp ha2 with rfl | ha2r
          · rw [hq] at halb2
            have : alb2 = alb := by simpa using halb2
            subst this
            rw [hp] at hperr
            exact absurd hperr (by simp)
          · exact ⟨a2, ha2r, alb2, halb2, hperr⟩

/-- C1: with an explicit cutoff, `get_new_releases` walks the artists in
input order, queries each artist's albums with `limit=1` so that only the
single latest album is ever considered, skips artists whose query returns
no albums, and keeps an album exactly when its parsed release date is
strictly after the cutoff — so the result is that subsequence of latest
albums in artist input order (stated under the hypothesis that every
considered release date parses, the failure-free case the claim
describes). -/
theorem C1_new_releases_filter (catalog : Str → List Album) (artists : List Artist)
    (cutoff : Datetime) (weeks : Option Int) (now : Datetime)
    (h : ∀ a ∈ artists, ∀ alb ∈ artist_albums catalog a.id 1,
      (parse_release_date alb.release_date).isOk = true) :
    get_new_releases catalog artists (some cutoff) weeks now =
      .ok (artists.filterMap fun a =>
        (artist_albums catalog a.id 1).head?.bind fun alb =>
          match parse_release_date alb.release_date with
          | .ok rd => if dtLtB cutoff rd then some alb else none
          | .error _ => none) := by
  unfold get_new_releases get_new_releasesRun
  dsimp only
  rw [getNewReleasesGo_ok catalog cutoff artists artists [] h]
  simp

/-- Witness for C1: three artists — one with a fresh latest album, one with
a stale one, one with no albums — yield exactly the fresh album. -/
theorem C1_witness :
    get_new_releases
      (fun s =>
        if s = "a1".data then [Album.mk "r1".data "New".data [Artist.mk "a1".data "A".data] "2024-02-10".data]
        else if s = "a2".data then [Album.mk "r2".data "Old".data [Artist.mk "a2".data "B".data] "2023-12-01".data]
        else [])
      [Artist.mk "a1".data "A".data, Artist.mk "a2".data "B".data, Artist.mk "a3".data "C".data]
      (some ⟨2024, 1, 1, 0⟩) none ⟨2024, 3, 1, 0⟩
    = .ok [Album.mk "r1".data "New".data [Artist.mk "a1".data "A".data] "2024-02-10".data] := by
  rw [C1_new_releases_filter _ _ _ _ _ (by decide)]
  decide

/-- C5: `parse_release_date` tries the exact `YYYY-MM-DD` parse first and
uses it when it succeeds; only when it fails does it try the year-only
`YYYY` parse, which yields January 1 of that year; when neither format
matches, a `ValueError` is raised — and inside `get_new_releases` that
parse error is exactly what aborts the whole filter pass (no per-artist
isolation): the run fails precisely when some artist's considered latest
album has an unparseable date. -/
theorem C5_dual_format_and_propagation :
    (∀ s : Str,
      (∀ t, strptimeYMD s = some t → parse_release_date s = .ok t)
      ∧ (strptimeYMD s = none → ∀ y, strptimeY s = some y →
          parse_release_date s = .ok y ∧ y.month = 1 ∧ y.day = 1)
      ∧ (strptimeYMD s = none → strptimeY s = none →
          parse_release_date s = .error .valueError))
    ∧ (∀ (catalog : Str → List Album) (artists : List Artist) (cutoff : Datetime)
        (weeks : Option Int) (now : Datetime),
        get_new_releases catalog artists (some cutoff) weeks now = .error .valueError ↔
          ∃ a ∈ artists, ∃ alb ∈ artist_albums catalog a.id 1,
            parse_release_date alb.release_date = .error .valueError) := by
  constructor
  · intro s
    refine ⟨?_, ?_, ?_⟩
    · intro t ht
      unfold parse_release_date
      rw [ht]
    · intro hn y hy
      refine ⟨by unfold parse_release_date; rw [hn, hy], ?_, ?_⟩ <;>
        · unfold strptimeY at hy
          split_ifs at hy with hlen
          · cases hd : digitsToNat s 0 with
            | none => rw [hd] at hy; simp at hy
            | some v =>
              rw [hd] at hy
              dsimp only at hy
              split_ifs at hy with hv
              cases hy
              rfl
    · intro hn hy
      unfold parse_release_date
      rw [hn, hy]
  · intro catalog artists cutoff weeks now
    unfold get_new_releases get_new_releasesRun
    exact getNewReleasesGo_error_iff catalog cutoff artists artists []

/-- Witness for C5: a year-only date parses to January 1, and one
unparseable latest release date makes the whole `get_new_releases` run
fail. -/
theorem C5_witness :
    parse_release_date "2023".data = .ok ⟨2023, 1, 1, 0⟩
    ∧ get_new_releases
        (fun _ => [Album.mk "r".data "X".data [Artist.mk "a".data "A".data] "garbage".data])
        [Artist.mk "a".data "A".data] (some ⟨2022, 6, 1, 0⟩) none ⟨2023, 1, 1, 0⟩
      = .error .valueError := by
  constructor
  · exact ((C5_dual_format_and_propagation.1 "2023".data).2.1 (by decide)
      ⟨2023, 1, 1, 0⟩ (by decide)).1
  · exact (C5_dual_format_and_propagation.2 _ _ _ _ _).mpr (by decide)

/-- The line the claim says the album formatter emits per record:
`- {primary artist} - {album name} - {release date}` plus a newline. -/
def albumLineSpec (album : Album) : Str :=
  match album.artists with
  | [] => []
  | a :: _ =>
    "- ".data ++ a.name ++ " - ".data ++ album.name ++ " - ".data ++
      album.release_date ++ [Char.ofNat 10]

theorem parseAlbumsGo_ok (st : List Album) :
    ∀ (l : List Album) (out : Str),
      (∀ alb ∈ l, alb.artists ≠ []) →
      (parseAlbumsGo st l out).1 = .ok (out ++ l.flatMap albumLineSpec) := by
  intro l
  induction l with
  | nil => intro out _; simp [parseAlbumsGo]
  | cons alb rest ih =>
    intro out h
    simp only [parseAlbumsGo]
    cases ha : alb.artists with
    | nil => exact absurd ha (h alb (List.mem_cons_self alb rest))
    | cons a tl =>
      dsimp only
      rw [ih _ fun alb2 h2 => h alb2 (List.mem_cons_of_mem _ h2)]
      simp [List.flatMap_cons, albumLineSpec, ha]

/-- C8: with `print_date=False`, the line-oriented album formatter emits,
per record, exactly the line `- {artist} - {name} - {release_date}` with a
trailing newline, and nothing else, in record order. -/
theorem C8_album_line_format (now : Datetime) (albums : List Album)
    (h : ∀ alb ∈ albums, alb.artists ≠ []) :
    parse_albums now false albums = .ok (albums.flatMap albumLineSpec) := by
  unfold parse_albums parse_albumsRun
  have hgo := parseAlbumsGo_ok albums albums (output_date now false) h
  simpa [output_date] using hgo

/-- Witness for C8: the single album {artist: A, name: B,
release_date: 2020-01-01} formats to exactly that one line. -/
theorem C8_witness :
    parse_albums ⟨2020, 1, 1, 0⟩ false
        [Album.mk "i".data "B".data [Artist.mk "ia".data "A".data] "2020-01-01".data]
      = .ok ("- A - B - 2020-01-01\n").data := by
  rw [C8_album_line_format _ _ (by decide)]
  decide

/-- C10: with `date=None` and `weeks=None` — as happens on the `releases`
path where a `--read-date` file is supplied but no date can be recovered
from it, since that path never sets `weeks` — the cutoff computation
raises `TypeError` instead of falling back to the declared 4-week default;
the default applies only through an omitted argument (then the cutoff is
`now` minus the given weeks). -/
theorem C10_weeks_none_type_error :
    (∀ (catalog : Str → List Album) (artists : List Artist) (now : Datetime),
      get_new_releases catalog artists none none now = .error .typeError)
    ∧ (∀ (catalog : Str → List Album) (now : Datetime) (ctx : Ctx) (arts : List Artist)
        (lines : List Str) (promptWeeks : Int),
        ctx.artists = some arts → read_date lines = .ok none →
        releasesCmd catalog now ctx none (some lines) none promptWeeks
          = ([], .error .typeError))
    ∧ (∀ (catalog : Str → List Album) (artists : List Artist) (date : Option Datetime)
        (now : Datetime),
        get_new_releases_weeks_omitted catalog artists date now
          = get_new_releases catalog artists date (some 4) now)
    ∧ (∀ (catalog : Str → List Album) (artists : List Artist) (now : Datetime) (w : Int),
        get_new_releases catalog artists none (some w) now
          = (getNewReleasesGo catalog (dtSubWeeks now w) artists artists []).1) := by
  refine ⟨fun _ _ _ => rfl, ?_, fun _ _ _ _ => rfl, fun _ _ _ _ => rfl⟩
  intro catalog now ctx arts lines promptWeeks harts hdate
  unfold releasesCmd
  dsimp only
  rw [hdate]
  unfold releasesFetch
  rw [harts]
  rfl

/-- Witness for C10: a marker file whose date token does not parse gives
`read_date = None`, and the `releases` run then dies with `TypeError`. -/
theorem C10_witness :
    read_date [("%date garbage").data] = .ok none
    ∧ releasesCmd (fun _ => []) ⟨2026, 1, 1, 0⟩
        (Ctx.mk "u".data (some [Artist.mk "a".data "A".data]) none none none none)
        none (some [("%date garbage").data]) none 4
      = ([], .error .typeError) := by
  constructor
  · decide
  · exact C10_weeks_none_type_error.2.1 _ _ _ [Artist.mk "a".data "A".data] _ 4 rfl (by decide)

theorem charDigit_digitChar : ∀ k, k < 10 → charDigit (digitChar k) = some k := by decide

theorem digitChar_not_ws : ∀ k, k < 10 → (digitChar k).isWhitespace = false := by decide

theorem digitChar_ne_nl : ∀ k, k < 10 → digitChar k ≠ Char.ofNat 10 := by decide

theorem digitChar_ne_dash : ∀ k, k < 10 → digitChar k ≠ Char.ofNat 45 := by decide

theorem pad4_chars (y : Nat) (hy : y ≤ 9999) :
    ∀ c ∈ pad4 y, ∃ k, k < 10 ∧ c = digitChar k := by
  intro c hc
  simp only [pad4, List.mem_cons, List.not_mem_nil, or_false] at hc
  rcases hc with rfl | rfl | rfl | rfl
  · exact ⟨y / 1000, by omega, rfl⟩
  · exact ⟨y / 100 % 10, by omega, rfl⟩
  · exact ⟨y / 10 % 10, by omega, rfl⟩
  · exact ⟨y % 10, by omega, rfl⟩

theorem pad2_chars (m : Nat) (hm : m < 100) :
    ∀ c ∈ pad2 m, ∃ k, k < 10 ∧ c = digitChar k := by
  intro c hc
  simp only [pad2, List.mem_cons, List.not_mem_nil, or_false] at hc
  rcases hc with rfl | rfl
  · exact ⟨m / 10, by omega, rfl⟩
  · exact ⟨m % 10, by omega, rfl⟩

theorem daysInMonth_le (y m : Nat) : daysInMonth y m ≤ 31 := by
  unfold daysInMonth
  split_ifs <;> omega

theorem strftime_chars (d : Datetime) (hv : ValidDate d) :
    ∀ c ∈ strftimeYMD d, c.isWhitespace = false ∧ c ≠ Char.ofNat 10 := by
  obtain ⟨h1, h2, h3, h4, h5, h6⟩ := hv
  have hm : d.month < 100 := by omega
  have hd : d.day < 100 := by
    have := daysInMonth_le d.year d.month
    omega
  intro c hc
  simp only [strftimeYMD, List.mem_append, List.mem_singleton] at hc
  rcases hc with (((hc | rfl) | hc) | rfl) | hc
  · obtain ⟨k, hk, rfl⟩ := pad4_chars d.year h2 c hc
    exact ⟨digitChar_not_ws k hk, digitChar_ne_nl k hk⟩
  · exact ⟨by decide, by decide⟩
  · obtain ⟨k, hk, rfl⟩ := pad2_chars d.month hm c hc
    exact ⟨digitChar_not_ws k hk, digitChar_ne_nl k hk⟩
  · exact ⟨by decide, by decide⟩
  · obtain ⟨k, hk, rfl⟩ := pad2_chars d.day hd c hc
    exact ⟨digitChar_not_ws k hk, digitChar_ne_nl k hk⟩

theorem digitsToNat_pad4 (y : Nat) (hy : y ≤ 9999) : digitsToNat (pad4 y) 0 = some y := by
  have h3 : y / 1000 < 10 := by omega
  have h2 : y / 100 % 10 < 10 := by omega
  have h1 : y / 10 % 10 < 10 := by omega
  have h0 : y % 10 < 10 := by omega
  simp only [pad4, digitsToNat, charDigit_digitChar _ h3, charDigit_digitChar _ h2,
    charDigit_digitChar _ h1, charDigit_digitChar _ h0]
  congr 1
  omega

theorem digitsToNat_pad2 (m : Nat) (hm : m < 100) : digitsToNat (pad2 m) 0 = some m := by
  have h1 : m / 10 < 10 := by omega
  have h0 : m % 10 < 10 := by omega
  simp only [pad2, digitsToNat, charDigit_digitChar _ h1, charDigit_digitChar _ h0]
  congr 1
  omega

theorem splitOnChar_no_sep (c : Char) : ∀ a : Str, c ∉ a → splitOnChar c a = [a] := by
  intro a
  induction a with
  | nil => intro _; rfl
  | cons x xs ih =>
    intro h
    have hx : ¬ (x = c) := fun he => h (he ▸ List.mem_cons_self x xs)
    simp only [splitOnChar, if_neg hx]
    rw [ih fun hmem => h (List.mem_cons_of_mem _ hmem)]

theorem splitOnChar_append (c : Char) :
    ∀ a b : Str, c ∉ a → splitOnChar c (a ++ c :: b) = a :: splitOnChar c b := by
  intro a
  induction a with
  | nil => intro b _; simp [splitOnChar]
  | cons x xs ih =>
    intro b h
    have hx : ¬ (x = c) := fun he => h (he ▸ List.mem_cons_self x xs)
    simp only [List.cons_append, splitOnChar, if_neg hx]
    rw [show splitOnChar c (xs.append (c :: b)) = xs :: splitOnChar c b from
      ih b fun hmem => h (List.mem_cons_of_mem _ hmem)]

theorem strptime_strftime (d : Datetime) (hv : ValidDate d) :
    strptimeYMD (strftimeYMD d) = some ⟨d.year, d.month, d.day, 0⟩ := by
  obtain ⟨h1, h2, h3, h4, h5, h6⟩ := hv
  have hm : d.month < 100 := by omega
  have hd : d.day < 100 := by
    have := daysInMonth_le d.year d.month
    omega
  have hdash4 : Char.ofNat 45 ∉ pad4 d.year := by
    intro hmem
    obtain ⟨k, hk, hck⟩ := pad4_chars d.year h2 _ hmem
    exact digitChar_ne_dash k hk hck.symm
  have hdash2m : Char.ofNat 45 ∉ pad2 d.month := by
    intro hmem
    obtain ⟨k, hk, hck⟩ := pad2_chars d.month hm _ hmem
    exact digitChar_ne_dash k hk hck.symm
  have hdash2d : Char.ofNat 45 ∉ pad2 d.day := by
    intro hmem
    obtain ⟨k, hk, hck⟩ := pad2_chars d.day hd _ hmem
    exact digitChar_ne_dash k hk hck.symm
  have hsplit : splitOnChar (Char.ofNat 45) (strftimeYMD d)
      = [pad4 d.year, pad2 d.month, pad2 d.day] := by
    unfold strftimeYMD
    have hassoc : pad4 d.year ++ [Char.ofNat 45] ++ pad2 d.month ++ [Char.ofNat 45] ++ pad2 d.day
        = pad4 d.year ++ (Char.ofNat 45 :: (pad2 d.month ++ (Char.ofNat 45 :: pad2 d.day))) := by
      simp
    rw [hassoc, splitOnChar_append _ _ _ hdash4, splitOnChar_append _ _ _ hdash2m,
      splitOnChar_no_sep _ _ hdash2d]
  unfold strptimeYMD
  rw [hsplit]
  dsimp only
  rw [if_pos (by simp [pad4, pad2])]
  rw [digitsToNat_pad4 d.year h2, digitsToNat_pad2 d.month hm, digitsToNat_pad2 d.day hd]
  dsimp only
  rw [if_pos ⟨h1, h3, h4, h5, h6⟩]

theorem pySplitAux_nonws :
    ∀ u v w : Str, (∀ c ∈ u, c.isWhitespace = false) →
      pySplitAux (u ++ v) w = pySplitAux v (u.reverse ++ w) := by
  intro u
  induction u with
  | nil => intro v w _; simp
  | cons c cs ih =>
    intro v w h
    have hc : c.isWhitespace = false := h c (List.mem_cons_self c cs)
    simp only [List.cons_append, pySplitAux, hc, Bool.false_eq_true, if_false]
    rw [show pySplitAux (cs.append v) (c :: w) = pySplitAux v (cs.reverse ++ (c :: w)) from
      ih v (c :: w) fun c2 h2 => h c2 (List.mem_cons_of_mem _ h2)]
    simp

theorem pySplitAux_space (v w : Str) (hw : w ≠ []) :
    pySplitAux (Char.ofNat 32 :: v) w = w.reverse :: pySplitAux v [] := by
  simp only [pySplitAux]
  rw [if_pos (by decide), if_neg hw]

theorem pySplit_word (v : Str) (hne : v ≠ []) (h : ∀ c ∈ v, c.isWhitespace = false) :
    pySplit v = [v] := by
  unfold pySplit
  have haux := pySplitAux_nonws v [] [] h
  rw [List.append_nil] at haux
  rw [haux]
  have hrev : v.reverse ++ ([] : Str) ≠ [] := by simp [hne]
  simp only [pySplitAux, if_neg hrev]
  simp

theorem pySplit_marker (v : Str) (hne : v ≠ []) (h : ∀ c ∈ v, c.isWhitespace = false) :
    pySplit ("%date ".data ++ v) = ["%date".data, v] := by
  unfold pySplit
  have heq : "%date ".data ++ v = "%date".data ++ (Char.ofNat 32 :: v) := by
    rw [show "%date ".data = "%date".data ++ [Char.ofNat 32] from rfl]
    simp
  rw [heq]
  rw [show pySplitAux ("%date".data ++ (Char.ofNat 32 :: v)) []
      = pySplitAux (Char.ofNat 32 :: v) ("%date".data.reverse ++ []) from
    pySplitAux_nonws "%date".data (Char.ofNat 32 :: v) [] (by decide)]
  rw [List.append_nil]
  rw [pySplitAux_space v "%date".data.reverse (by decide)]
  have hword : pySplitAux v [] = [v] := pySplit_word v hne h
  rw [hword]
  simp

theorem read_date_of_marker (v : Str) (rest : List Str) (hne : v ≠ [])
    (h : ∀ c ∈ v, c.isWhitespace = false) :
    read_date (("%date ".data ++ v) :: rest) =
      match strptimeYMD v with
      | some d => .ok (some d)
      | none => .ok none := by
  unfold read_date readDateScan
  rw [pySplit_marker v hne h]
  dsimp only
  rw [if_pos (by decide)]

theorem parseArtistsGo_prefix (st : List Artist) :
    ∀ (l : List Artist) (out : Str), ∃ r, (parseArtistsGo st l out).1 = out ++ r := by
  intro l
  induction l with
  | nil => intro out; exact ⟨[], by simp [parseArtistsGo]⟩
  | cons a rest ih =>
    intro out
    obtain ⟨r, hr⟩ := ih (out ++ "- ".data ++ a.name ++ [Char.ofNat 10])
    refine ⟨"- ".data ++ a.name ++ [Char.ofNat 10] ++ r, ?_⟩
    simp only [parseArtistsGo]
    rw [hr]
    simp

theorem parseAlbumsGo_prefix (st : List Album) :
    ∀ (l : List Album) (out s : Str), (parseAlbumsGo st l out).1 = .ok s →
      ∃ r, s = out ++ r := by
  intro l
  induction l with
  | nil =>
    intro out s hs
    simp only [parseAlbumsGo, Except.ok.injEq] at hs
    exact ⟨[], by simp [← hs]⟩
  | cons alb rest ih =>
    intro out s hs
    simp only [parseAlbumsGo] at hs
    cases ha : alb.artists with
    | nil => rw [ha] at hs; simp at hs
    | cons a tl =>
      rw [ha] at hs
      dsimp only at hs
      obtain ⟨r, hr⟩ := ih _ s hs
      refine ⟨"- ".data ++ a.name ++ " - ".data ++ alb.name ++ " - ".data ++
        alb.release_date ++ [Char.ofNat 10] ++ r, ?_⟩
      rw [hr]
      simp

theorem read_date_output_date (now : Datetime) (hv : ValidDate now) (r : Str) :
    read_date (fileLines (output_date now true ++ r))
      = .ok (some ⟨now.year, now.month, now.day, 0⟩) := by
  have hfmtne : strftimeYMD now ≠ [] := by simp [strftimeYMD, pad4]
  have hchars := strftime_chars now hv
  have hnonl : Char.ofNat 10 ∉ "%date ".data ++ strftimeYMD now := by
    intro hmem
    rcases List.mem_append.mp hmem with hmem | hmem
    · revert hmem; decide
    · exact (hchars _ hmem).2 rfl
  have hshape : output_date now true ++ r
      = ("%date ".data ++ strftimeYMD now) ++ (Char.ofNat 10 :: r) := by
    unfold output_date
    simp
  rw [hshape]
  unfold fileLines
  rw [splitOnChar_append _ _ _ hnonl]
  rw [read_date_of_marker _ _ hfmtne fun c hc => (hchars c hc).1]
  rw [strptime_strftime now hv]

/-- C7: formatting with `print_date=True` prepends the `%date YYYY-MM-DD`
marker line for the date taken as "now", and `read_date` applied to that
formatted output recovers exactly that calendar date.  Stated for valid
dates with a four-digit year at or above 1000, where the `%Y` rendering is
the unpadded four digits. -/
theorem C7_date_marker_roundtrip (now : Datetime) (artists : List Artist)
    (albums : List Album) (s : Str) (hv : ValidDate now) (_hy : 1000 ≤ now.year) :
    read_date (fileLines (parse_artists now true artists))
      = .ok (some ⟨now.year, now.month, now.day, 0⟩)
    ∧ (parse_albums now true albums = .ok s →
        read_date (fileLines s) = .ok (some ⟨now.year, now.month, now.day, 0⟩)) := by
  constructor
  · obtain ⟨r, hr⟩ := parseArtistsGo_prefix artists artists (output_date now true)
    unfold parse_artists parse_artistsRun
    rw [hr]
    exact read_date_output_date now hv r
  · intro hs
    unfold parse_albums parse_albumsRun at hs
    obtain ⟨r, hr⟩ := parseAlbumsGo_prefix albums albums (output_date now true) s hs
    rw [hr]
    exact read_date_output_date now hv r

/-- Witness for C7 at the date 2020-01-01. -/
theorem C7_witness :
    read_date (fileLines (parse_artists ⟨2020, 1, 1, 0⟩ true [Artist.mk "i".data "N".data]))
      = .ok (some ⟨2020, 1, 1, 0⟩) :=
  (C7_date_marker_roundtrip ⟨2020, 1, 1, 0⟩ [Artist.mk "i".data "N".data] [] []
    (by decide) (by decide)).1
